import Mathlib

/-!
Shallow embedding of the order matching and settlement core of the
SEBI_Hackathon bond trading backend
(`packages/backend/seed.ts`, class `SimpleOrderbookService`, together with
the entity declarations in `packages/backend/src/entities`).

Conventions of the embedding:
* TypeScript numbers that hold money (prices, cash, volume weighted average
  prices) are modelled as `ℚ`; order quantities are `Nat`
  (`qtyUnits`, `qtyFilledUnits` are integer unit counts, enforced by the
  `CreateOrderDto` validator `@Min(1)`), and stored position quantities are
  `Int` (the seller update `qtyUnits -= qty` may pass through a negative
  value before the `<= 0` removal check).
* `priceLimit` is `Option ℚ` (the column is nullable; MARKET orders carry no
  price).  Where the TypeScript source uses a possibly-null price in
  arithmetic or comparisons (`order.priceLimit || 0`, `null >= x`,
  `null * q`), JavaScript coerces `null` to `0`; `jsNum` performs that
  coercion.
* The TypeORM repositories are modelled as lists inside a `DB` record;
  `findOne` is `List.find?`, `save` replaces the row with the same key (or
  appends a new row), `remove` filters the key out.  Mutation of fetched
  entities that is never followed by `save` (the resting order's
  `qtyFilledUnits` update in `executeTrade`) therefore never reaches the
  `DB`, exactly as in the source, where only the incoming order is saved.
* Exceptions (`validateOrder` throws; a `findOne` returning `null` followed
  by a property access crashes) are modelled with an `Err` value threaded
  next to the mutated state, so that writes performed before the throw stay
  visible, as they do with the source's non-transactional repository calls.
-/

namespace Orderbook

inductive Side where
  | BUY
  | SELL
deriving DecidableEq, Repr

inductive OrderType where
  | MARKET
  | LIMIT
deriving DecidableEq, Repr

/-- Status column of the `orders` table (`order.entity.ts`). -/
inductive OStatus where
  | OPEN
  | EXECUTED
  | CANCELLED
  | EXPIRED
  | PARTIAL
deriving DecidableEq, Repr

/-- Row of the `orders` table (`order.entity.ts`); `createdAt` is a
timestamp modelled as `Nat`. -/
structure Order where
  id : Nat
  userId : Nat
  bondId : Nat
  side : Side
  orderType : OrderType
  priceLimit : Option ℚ
  qtyUnits : Nat
  qtyFilledUnits : Nat
  status : OStatus
  createdAt : Nat
deriving DecidableEq, Repr

/-- Row of the `trades` table (`trade.entity.ts`), restricted to the columns
the matching core writes and the claims read. -/
structure Trade where
  buyOrderId : Nat
  sellOrderId : Nat
  bondId : Nat
  pricePerUnit : ℚ
  qtyUnits : Nat
deriving DecidableEq, Repr

/-- Row of the `portfolios` table (referenced from `seed.ts`; one portfolio
per user, holding the cash balance). -/
structure Portfolio where
  id : Nat
  userId : Nat
  cashBalance : ℚ
deriving DecidableEq, Repr

/-- Row of the `positions` table (`position.entity.ts`), unique on
`(portfolioId, bondId)`. -/
structure Position where
  portfolioId : Nat
  bondId : Nat
  qtyUnits : Int
  avgPricePerUnit : ℚ
deriving DecidableEq, Repr

/-- The durable state the service reads and writes through its four
repositories. -/
structure DB where
  orders : List Order
  trades : List Trade
  positions : List Position
  portfolios : List Portfolio
deriving DecidableEq, Repr

/-- JavaScript numeric coercion of a nullable price: `null` becomes `0`
(`order.priceLimit || 0`, and `null` compared or multiplied as a number). -/
def jsNum (p : Option ℚ) : ℚ :=
  p.getD 0

/-- Errors surfaced by the service: the two `throw new Error(...)` sites of
`validateOrder`, and the `TypeError` raised when a `findOne` that returned
`null` is dereferenced. -/
inductive Err where
  | insufficientCash
  | insufficientPosition
  | nullPortfolio
deriving DecidableEq, Repr

/-! ### Repository primitives (list level) -/

def findPf (l : List Portfolio) (userId : Nat) : Option Portfolio :=
  l.find? fun pf => decide (pf.userId = userId)

def savePf (l : List Portfolio) (pf : Portfolio) : List Portfolio :=
  l.map fun x => if x.id = pf.id then pf else x

def findPos (l : List Position) (portfolioId bondId : Nat) : Option Position :=
  l.find? fun ps => decide (ps.portfolioId = portfolioId) && decide (ps.bondId = bondId)

def savePos (l : List Position) (ps : Position) : List Position :=
  if l.any (fun x => decide (x.portfolioId = ps.portfolioId) && decide (x.bondId = ps.bondId)) then
    l.map fun x =>
      if decide (x.portfolioId = ps.portfolioId) && decide (x.bondId = ps.bondId) then ps else x
  else
    l ++ [ps]

def removePos (l : List Position) (portfolioId bondId : Nat) : List Position :=
  l.filter fun x => !(decide (x.portfolioId = portfolioId) && decide (x.bondId = bondId))

def saveOrd (l : List Order) (o : Order) : List Order :=
  if l.any (fun x => decide (x.id = o.id)) then
    l.map fun x => if x.id = o.id then o else x
  else
    l ++ [o]

/-! ### Repository primitives (DB level) -/

def findPortfolio (db : DB) (userId : Nat) : Option Portfolio :=
  findPf db.portfolios userId

def savePortfolio (db : DB) (pf : Portfolio) : DB :=
  { db with portfolios := savePf db.portfolios pf }

def findPosition (db : DB) (portfolioId bondId : Nat) : Option Position :=
  findPos db.positions portfolioId bondId

def savePosition (db : DB) (ps : Position) : DB :=
  { db with positions := savePos db.positions ps }

def removePosition (db : DB) (portfolioId bondId : Nat) : DB :=
  { db with positions := removePos db.positions portfolioId bondId }

def saveOrder (db : DB) (o : Order) : DB :=
  { db with orders := saveOrd db.orders o }

def saveTrade (db : DB) (t : Trade) : DB :=
  { db with trades := db.trades ++ [t] }

/-- The SELL-side position lookup of `validateOrder`:
`positionRepository.findOne({ where: { portfolio: { userId }, bondId } })`,
a join through the user's portfolio. -/
def findPositionByUser (db : DB) (userId bondId : Nat) : Option Position :=
  match findPortfolio db userId with
  | none => none
  | some pf => findPosition db pf.id bondId

/-! ### The service operations (`SimpleOrderbookService`) -/

/-- `validateOrder` (seed.ts lines 127-151).  BUY: the user's cash must be
at least `(order.priceLimit || 0) * order.qtyUnits`; a missing portfolio
makes the `portfolio.cashBalance` access crash.  SELL: the user's position
in the bond must hold at least `order.qtyUnits`. -/
def validateOrder (db : DB) (o : Order) : Except Err Unit :=
  if o.side = Side.BUY then
    match findPortfolio db o.userId with
    | none => Except.error Err.nullPortfolio
    | some pf =>
      if pf.cashBalance < jsNum o.priceLimit * (o.qtyUnits : ℚ) then
        Except.error Err.insufficientCash
      else
        Except.ok ()
  else
    match findPositionByUser db o.userId o.bondId with
    | none => Except.error Err.insufficientPosition
    | some ps =>
      if ps.qtyUnits < (o.qtyUnits : Int) then Except.error Err.insufficientPosition
      else Except.ok ()

/-- `canMatch` (seed.ts lines 184-194): MARKET orders match at any price;
a LIMIT BUY needs its limit at or above the opposite order's, a LIMIT SELL
at or below. -/
def canMatch (order oppositeOrder : Order) : Bool :=
  if order.orderType = OrderType.MARKET then
    true
  else if order.side = Side.BUY then
    decide (jsNum oppositeOrder.priceLimit ≤ jsNum order.priceLimit)
  else
    decide (jsNum order.priceLimit ≤ jsNum oppositeOrder.priceLimit)

def oppositeOf : Side → Side
  | Side.BUY => Side.SELL
  | Side.SELL => Side.BUY

/-- The SQL ordering used by both the matching fetch and the book snapshot:
`priceLimit` descending for the BUY side and ascending for the SELL side,
then `createdAt` ascending.  (All fetched rows have `status = 'OPEN'`, and
rows saved as OPEN are LIMIT orders, so `priceLimit` is present on them.) -/
def bookLE (side : Side) (a b : Order) : Bool :=
  if jsNum a.priceLimit = jsNum b.priceLimit then
    decide (a.createdAt ≤ b.createdAt)
  else if side = Side.BUY then
    decide (jsNum b.priceLimit < jsNum a.priceLimit)
  else
    decide (jsNum a.priceLimit < jsNum b.priceLimit)

/-- The repository query shared by `matchOrder` (lines 158-168) and
`getOrderBookSide` (lines 343-353): all orders of the bond and side whose
status is exactly `'OPEN'`, in price-time priority order. -/
def getOpenOrders (db : DB) (bondId : Nat) (side : Side) : List Order :=
  List.insertionSort (fun a b => bookLE side a b = true)
    (db.orders.filter fun o =>
      decide (o.bondId = bondId) && decide (o.side = side) && decide (o.status = OStatus.OPEN))

/-- Result of `executeTrade`: the state after the writes, the two order
objects with their in-memory `qtyFilledUnits` updates, the trade row (saved
before the ledger updates), and an error if a ledger lookup crashed. -/
structure ExecResult where
  db : DB
  buyOrder : Order
  sellOrder : Order
  trade : Trade
  err : Option Err
deriving DecidableEq, Repr

/-- The buyer position record `updatePositions` starts from: the stored
position if present, else a fresh one at quantity 0 and average price 0
(the `findOne`-or-`create` of seed.ts lines 244-258). -/
def buyerBasis (db : DB) (portfolioId bondId : Nat) : Position :=
  (findPosition db portfolioId bondId).getD
    { portfolioId := portfolioId, bondId := bondId, qtyUnits := 0, avgPricePerUnit := 0 }

/-- The buyer position record `updatePositions` saves (seed.ts lines
260-266): quantity increased by the trade quantity and the volume weighted
average price recomputed as `(oldAvg*oldQty + price*qty) / (oldQty+qty)`. -/
def newBuyerPos (db : DB) (bpid : Nat) (bbond : Nat) (price : ℚ) (qty : Nat) : Position :=
  { buyerBasis db bpid bbond with
    avgPricePerUnit :=
      ((buyerBasis db bpid bbond).avgPricePerUnit * ((buyerBasis db bpid bbond).qtyUnits : ℚ)
        + price * (qty : ℚ)) / (((buyerBasis db bpid bbond).qtyUnits + (qty : Int) : Int) : ℚ)
    qtyUnits := (buyerBasis db bpid bbond).qtyUnits + (qty : Int) }

/-- `updatePositions` (seed.ts lines 233-288): the buyer's position is
created at zero if absent, its volume weighted average price recomputed and
saved; the seller's position, when present, is decremented and removed if
that leaves it at or below zero — when absent, nothing happens on the
seller side. -/
def updatePositions (db : DB) (buyOrder sellOrder : Order) (price : ℚ) (qty : Nat) :
    DB × Option Err :=
  match findPortfolio db buyOrder.userId with
  | none => (db, some Err.nullPortfolio)
  | some buyerPortfolio =>
    let db1 := savePosition db (newBuyerPos db buyerPortfolio.id buyOrder.bondId price qty)
    match findPortfolio db1 sellOrder.userId with
    | none => (db1, some Err.nullPortfolio)
    | some sellerPortfolio =>
      match findPosition db1 sellerPortfolio.id sellOrder.bondId with
      | none => (db1, none)
      | some sellerPosition =>
        let q' := sellerPosition.qtyUnits - (qty : Int)
        if q' ≤ 0 then
          (removePosition db1 sellerPosition.portfolioId sellerPosition.bondId, none)
        else
          (savePosition db1 { sellerPosition with qtyUnits := q' }, none)

/-- `updatePortfolios` (seed.ts lines 290-311): debit the buyer's cash by
`price * qty`, credit the seller's. -/
def updatePortfolios (db : DB) (buyOrder sellOrder : Order) (price : ℚ) (qty : Nat) :
    DB × Option Err :=
  let tradeAmount := price * (qty : ℚ)
  match findPortfolio db buyOrder.userId with
  | none => (db, some Err.nullPortfolio)
  | some buyerPortfolio =>
    let db1 := savePortfolio db
      { buyerPortfolio with cashBalance := buyerPortfolio.cashBalance - tradeAmount }
    match findPortfolio db1 sellOrder.userId with
    | none => (db1, some Err.nullPortfolio)
    | some sellerPortfolio =>
      (savePortfolio db1
        { sellerPortfolio with cashBalance := sellerPortfolio.cashBalance + tradeAmount }, none)

/-- `executeTrade` (seed.ts lines 196-231).  The trade quantity is the
minimum of the two remainders; the trade price is the limit price of
whichever order was placed first (`buyOrder.createdAt <= sellOrder.createdAt`
choosing the buy order); the trade row is saved, both order objects get
their `qtyFilledUnits` increased in memory (neither is saved here), then
positions and portfolios are updated. -/
def executeTrade (db : DB) (buyOrder sellOrder : Order) : ExecResult :=
  let remainingBuyQty := buyOrder.qtyUnits - buyOrder.qtyFilledUnits
  let remainingSellQty := sellOrder.qtyUnits - sellOrder.qtyFilledUnits
  let tradeQty := min remainingBuyQty remainingSellQty
  let tradePrice :=
    jsNum (if buyOrder.createdAt ≤ sellOrder.createdAt then buyOrder.priceLimit
           else sellOrder.priceLimit)
  let trade : Trade :=
    { buyOrderId := buyOrder.id, sellOrderId := sellOrder.id, bondId := buyOrder.bondId,
      pricePerUnit := tradePrice, qtyUnits := tradeQty }
  let db1 := saveTrade db trade
  let b := { buyOrder with qtyFilledUnits := buyOrder.qtyFilledUnits + tradeQty }
  let s := { sellOrder with qtyFilledUnits := sellOrder.qtyFilledUnits + tradeQty }
  let res :=
    match updatePositions db1 b s tradePrice tradeQty with
    | (db2, some e) => (db2, some e)
    | (db2, none) => updatePortfolios db2 b s tradePrice tradeQty
  { db := res.1, buyOrder := b, sellOrder := s, trade := trade, err := res.2 }

/-- Result of `matchOrder`/`addOrder`: state, the incoming order object
(with its in-memory mutations), the trades generated, and a propagated
error. -/
structure SubmitResult where
  db : DB
  order : Order
  trades : List Trade
  err : Option Err
deriving DecidableEq, Repr

/-- The `for` loop of `matchOrder` (seed.ts lines 170-179): stop when the
incoming order is full; skip already-full rows; on a price-compatible pair
call `executeTrade(order, oppositeOrder)` positionally (seed.ts line 176) —
the incoming order always occupies the `buyOrder` parameter, even when it
is a SELL, so the trade's ids, the price tie-break, and the settlement
direction all follow the incoming/resting split, not the BUY/SELL split.
The loop continues with the incoming order object, whose
`qtyFilledUnits` was mutated in place (`r.buyOrder`). -/
def matchLoop (db : DB) (order : Order) (opps : List Order) (trades : List Trade) :
    SubmitResult :=
  match opps with
  | [] => { db := db, order := order, trades := trades, err := none }
  | oppositeOrder :: rest =>
    if order.qtyUnits ≤ order.qtyFilledUnits then
      { db := db, order := order, trades := trades, err := none }
    else if oppositeOrder.qtyUnits ≤ oppositeOrder.qtyFilledUnits then
      matchLoop db order rest trades
    else if canMatch order oppositeOrder then
      let r := executeTrade db order oppositeOrder
      match r.err with
      | some e => { db := r.db, order := r.buyOrder, trades := trades ++ [r.trade], err := some e }
      | none => matchLoop r.db r.buyOrder rest (trades ++ [r.trade])
    else
      matchLoop db order rest trades

/-- `matchOrder` (seed.ts lines 153-182): fetch the opposite side's OPEN
orders in priority order and run the loop. -/
def matchOrder (db : DB) (order : Order) : SubmitResult :=
  matchLoop db order (getOpenOrders db order.bondId (oppositeOf order.side)) []

/-- The status assignment of `addOrder` (seed.ts lines 67-76). -/
def finalStatus (order : Order) : OStatus :=
  if order.qtyFilledUnits = order.qtyUnits then OStatus.EXECUTED
  else if 0 < order.qtyFilledUnits then OStatus.PARTIAL
  else if order.orderType = OrderType.MARKET then OStatus.CANCELLED
  else OStatus.OPEN

/-- `addOrder` (seed.ts lines 54-91): validate, match, derive the incoming
order's final status and save it; on any thrown error the incoming order is
saved as CANCELLED and the error propagates (writes made before the throw
are kept — the repository calls are not transactional). -/
def addOrder (db : DB) (order : Order) : SubmitResult :=
  match validateOrder db order with
  | Except.error e =>
    let o' := { order with status := OStatus.CANCELLED }
    { db := saveOrder db o', order := o', trades := [], err := some e }
  | Except.ok _ =>
    let r := matchOrder db order
    match r.err with
    | some e =>
      let o' := { r.order with status := OStatus.CANCELLED }
      { db := saveOrder r.db o', order := o', trades := r.trades, err := some e }
    | none =>
      let o' := { r.order with status := finalStatus r.order }
      { db := saveOrder r.db o', order := o', trades := r.trades, err := none }

/-- `cancelOrder` (seed.ts lines 111-125): look up the order by id and
owner; return `false` when it is missing or its status is not `'OPEN'`;
otherwise set it to CANCELLED, save, and return `true`. -/
def cancelOrder (db : DB) (orderId userId : Nat) : DB × Bool :=
  match db.orders.find? (fun o => decide (o.id = orderId) && decide (o.userId = userId)) with
  | none => (db, false)
  | some o =>
    if o.status = OStatus.OPEN then
      (saveOrder db { o with status := OStatus.CANCELLED }, true)
    else
      (db, false)

/-- One aggregated price level of `getOrderBookSide` (seed.ts lines 25-29):
`quantity` accumulates `qtyUnits - qtyFilledUnits` of the contributing
orders. -/
structure OrderBookLevel where
  price : ℚ
  quantity : Int
  orders : List Order
deriving DecidableEq, Repr

/-- One step of the level-grouping loop of `getOrderBookSide` (seed.ts
lines 358-371); the `Map` keyed by price preserves first-insertion order,
modelled as an association list. -/
def addToLevels (levels : List OrderBookLevel) (o : Order) : List OrderBookLevel :=
  let price := jsNum o.priceLimit
  if levels.any (fun l => decide (l.price = price)) then
    levels.map fun l =>
      if l.price = price then
        { l with
          quantity := l.quantity + ((o.qtyUnits : Int) - (o.qtyFilledUnits : Int))
          orders := l.orders ++ [o] }
      else l
  else
    levels ++ [{ price := price
                 quantity := (o.qtyUnits : Int) - (o.qtyFilledUnits : Int)
                 orders := [o] }]

/-- The final sort of the levels (seed.ts lines 374-376): by price,
descending for bids and ascending for asks. -/
def levelLE (side : Side) (a b : OrderBookLevel) : Bool :=
  if side = Side.BUY then decide (b.price ≤ a.price) else decide (a.price ≤ b.price)

/-- `getOrderBookSide` (seed.ts lines 342-379): fetch the bond/side's OPEN
orders in priority order, group them into price levels, and sort the
levels best-first. -/
def getOrderBookSide (db : DB) (bondId : Nat) (side : Side) : List OrderBookLevel :=
  List.insertionSort (fun a b => levelLE side a b = true)
    ((getOpenOrders db bondId side).foldl addToLevels [])

/-- Total units of a bond held across all stored positions — the quantity
the conservation property of the spec is about. -/
def totalUnits (db : DB) (bondId : Nat) : Int :=
  (db.positions.filter fun p => decide (p.bondId = bondId)).foldl
    (fun acc p => acc + p.qtyUnits) 0

/-! ### Concrete scenarios

The spec's own scenario of §8 for bond 1: user 2 holds 100 units and sells
100 LIMIT at 98 (t=1), user 1 has ample cash and buys 150 LIMIT at 99
(t=2), user 3 holds 50 units and then sells 50 MARKET (t=3). -/

def dbA : DB :=
  { orders := [], trades := [], positions := [⟨2, 1, 100, 5⟩, ⟨3, 1, 50, 5⟩],
    portfolios := [⟨1, 1, 15000⟩, ⟨2, 2, 0⟩, ⟨3, 3, 0⟩] }

def s1A : Order :=
  ⟨10, 2, 1, Side.SELL, OrderType.LIMIT, some 98, 100, 0, OStatus.OPEN, 1⟩

def b1A : Order :=
  ⟨11, 1, 1, Side.BUY, OrderType.LIMIT, some 99, 150, 0, OStatus.OPEN, 2⟩

def s2A : Order :=
  ⟨12, 3, 1, Side.SELL, OrderType.MARKET, none, 50, 0, OStatus.OPEN, 3⟩

def runA1 : SubmitResult := addOrder dbA s1A

def runA2 : SubmitResult := addOrder runA1.db b1A

def runA3 : SubmitResult := addOrder runA2.db s2A

/-- Two orders with equal `createdAt` timestamps: resting SELL LIMIT at 98
and incoming BUY LIMIT at 99, both created at t=5. -/
def dbB : DB :=
  { orders := [], trades := [], positions := [⟨2, 1, 50, 5⟩],
    portfolios := [⟨1, 1, 100000⟩, ⟨2, 2, 0⟩] }

def sRestB : Order :=
  ⟨20, 2, 1, Side.SELL, OrderType.LIMIT, some 98, 50, 0, OStatus.OPEN, 5⟩

def bInB : Order :=
  ⟨21, 1, 1, Side.BUY, OrderType.LIMIT, some 99, 50, 0, OStatus.OPEN, 5⟩

def runB1 : SubmitResult := addOrder dbB sRestB

def runB2 : SubmitResult := addOrder runB1.db bInB

/-- Oversell: user 2 holds 100 units and submits two SELL LIMIT orders of
100 units each — both pass validation because the position is only checked
at submission time — then user 1 buys 200. -/
def dbC : DB :=
  { orders := [], trades := [], positions := [⟨2, 1, 100, 5⟩],
    portfolios := [⟨1, 1, 5000⟩, ⟨2, 2, 0⟩] }

def s1C : Order :=
  ⟨31, 2, 1, Side.SELL, OrderType.LIMIT, some 10, 100, 0, OStatus.OPEN, 1⟩

def s2C : Order :=
  ⟨32, 2, 1, Side.SELL, OrderType.LIMIT, some 10, 100, 0, OStatus.OPEN, 2⟩

def bC : Order :=
  ⟨33, 1, 1, Side.BUY, OrderType.LIMIT, some 10, 200, 0, OStatus.OPEN, 3⟩

def runC1 : SubmitResult := addOrder dbC s1C

def runC2 : SubmitResult := addOrder runC1.db s2C

def runC3 : SubmitResult := addOrder runC2.db bC

/-- A MARKET BUY from a user with zero cash against a resting SELL of 10
units at 7. -/
def dbD : DB :=
  { orders := [], trades := [], positions := [⟨2, 1, 10, 5⟩],
    portfolios := [⟨1, 1, 0⟩, ⟨2, 2, 0⟩] }

def sD : Order :=
  ⟨41, 2, 1, Side.SELL, OrderType.LIMIT, some 7, 10, 0, OStatus.OPEN, 1⟩

def bD : Order :=
  ⟨42, 1, 1, Side.BUY, OrderType.MARKET, none, 10, 0, OStatus.OPEN, 2⟩

def runD1 : SubmitResult := addOrder dbD sD

def runD2 : SubmitResult := addOrder runD1.db bD

/-- A MARKET BUY of 5 units from a user with zero cash against an entirely
empty book. -/
def dbE : DB :=
  { orders := [], trades := [], positions := [], portfolios := [⟨1, 1, 0⟩] }

def bE : Order :=
  ⟨51, 1, 1, Side.BUY, OrderType.MARKET, none, 5, 0, OStatus.OPEN, 1⟩

/-- A MARKET BUY of 100 units against a resting SELL of only 50 units at
10: the market order can only partially fill. -/
def dbF : DB :=
  { orders := [], trades := [], positions := [⟨2, 1, 50, 5⟩],
    portfolios := [⟨1, 1, 1000⟩, ⟨2, 2, 0⟩] }

def sF : Order :=
  ⟨61, 2, 1, Side.SELL, OrderType.LIMIT, some 10, 50, 0, OStatus.OPEN, 1⟩

def mF : Order :=
  ⟨62, 1, 1, Side.BUY, OrderType.MARKET, none, 100, 0, OStatus.OPEN, 2⟩

def runF1 : SubmitResult := addOrder dbF sF

def runF2 : SubmitResult := addOrder runF1.db mF

/-- A PARTIAL order (id 71, owner user 1, 50 of 100 filled) sitting in the
store, for exercising `cancelOrder`. -/
def ordG : Order :=
  ⟨71, 1, 1, Side.BUY, OrderType.LIMIT, some 10, 100, 50, OStatus.PARTIAL, 1⟩

def dbG : DB :=
  { orders := [ordG], trades := [], positions := [], portfolios := [⟨1, 1, 1000⟩] }

/-- An OPEN order (id 81, owner user 1) sitting in the store, for the
cancellation witness. -/
def ordH : Order :=
  ⟨81, 1, 1, Side.SELL, OrderType.LIMIT, some 10, 100, 0, OStatus.OPEN, 1⟩

def dbH : DB :=
  { orders := [ordH], trades := [], positions := [⟨1, 1, 100, 5⟩],
    portfolios := [⟨1, 1, 1000⟩] }

/-- A minimal two-user settlement setting: buyer user 1 (portfolio 1, cash
9), seller user 2 (portfolio 2, cash 0) holding 5 units of bond 1 at
average price 2; used to witness the settlement contract at price 3 and
quantity 5. -/
def dbW : DB :=
  { orders := [], trades := [], positions := [⟨2, 1, 5, 2⟩],
    portfolios := [⟨1, 1, 9⟩, ⟨2, 2, 0⟩] }

def bW : Order :=
  ⟨101, 1, 1, Side.BUY, OrderType.LIMIT, some 3, 5, 0, OStatus.OPEN, 1⟩

def sW : Order :=
  ⟨102, 2, 1, Side.SELL, OrderType.LIMIT, some 3, 5, 0, OStatus.OPEN, 2⟩

/-- Self-trade: user 1 holds 3 units (average price 5) and 7 cash, rests a
SELL LIMIT of 2 at 1, and then submits a crossing BUY LIMIT of 2 at 1. -/
def dbJ : DB :=
  { orders := [], trades := [], positions := [⟨1, 1, 3, 5⟩],
    portfolios := [⟨1, 1, 7⟩] }

def sJ : Order :=
  ⟨91, 1, 1, Side.SELL, OrderType.LIMIT, some 1, 2, 0, OStatus.OPEN, 1⟩

def bJ : Order :=
  ⟨92, 1, 1, Side.BUY, OrderType.LIMIT, some 1, 2, 0, OStatus.OPEN, 2⟩

/-- The state after user 1's SELL order 91 rests: exactly `dbJ` with the
order appended OPEN (proved equal to `(addOrder dbJ sJ).db` in C10's
theorem). -/
def dbJmid : DB :=
  { orders := [sJ], trades := [], positions := [⟨1, 1, 3, 5⟩],
    portfolios := [⟨1, 1, 7⟩] }

def runJ2 : SubmitResult := addOrder dbJmid bJ

/-! ### Lemmas about the repository primitives -/

lemma find?_map_replace_pos {α : Type} (p : α → Bool) (q : α → Prop) [DecidablePred q]
    (y : α) (l : List α) (hy : p y = true) {a : α}
    (h : l.find? p = some a) (hqa : q a) :
    (l.map fun x => if q x then y else x).find? p = some y := by
  induction l with
  | nil => simp at h
  | cons x xs ih =>
    cases hpx : p x with
    | true =>
      rw [List.find?_cons_of_pos _ hpx] at h
      injection h with h
      subst h
      simp only [List.map_cons, if_pos hqa]
      exact List.find?_cons_of_pos _ hy
    | false =>
      rw [List.find?_cons_of_neg _ (by simp [hpx])] at h
      by_cases hqx : q x
      · simp only [List.map_cons, if_pos hqx]
        exact List.find?_cons_of_pos _ hy
      · simp only [List.map_cons, if_neg hqx]
        rw [List.find?_cons_of_neg _ (by simp [hpx])]
        exact ih h

lemma find?_map_replace_neg {α : Type} (p : α → Bool) (q : α → Prop) [DecidablePred q]
    (y : α) (l : List α) (hy : p y = false) {a : α}
    (h : l.find? p = some a) (hqa : ¬ q a) :
    (l.map fun x => if q x then y else x).find? p = some a := by
  induction l with
  | nil => simp at h
  | cons x xs ih =>
    cases hpx : p x with
    | true =>
      rw [List.find?_cons_of_pos _ hpx] at h
      injection h with h
      subst h
      simp only [List.map_cons, if_neg hqa]
      exact List.find?_cons_of_pos _ hpx
    | false =>
      rw [List.find?_cons_of_neg _ (by simp [hpx])] at h
      by_cases hqx : q x
      · simp only [List.map_cons, if_pos hqx]
        rw [List.find?_cons_of_neg _ (by simp [hy])]
        exact ih h
      · simp only [List.map_cons, if_neg hqx]
        rw [List.find?_cons_of_neg _ (by simp [hpx])]
        exact ih h

lemma find?_filter_of_imp {α : Type} (p f : α → Bool) (l : List α)
    (hpf : ∀ x, p x = true → f x = true) :
    (l.filter f).find? p = l.find? p := by
  induction l with
  | nil => rfl
  | cons x xs ih =>
    cases hpx : p x with
    | true =>
      rw [List.filter_cons_of_pos (hpf x hpx), List.find?_cons_of_pos _ hpx,
        List.find?_cons_of_pos _ hpx]
    | false =>
      cases hfx : f x with
      | true =>
        rw [List.filter_cons_of_pos hfx, List.find?_cons_of_neg _ (by simp [hpx]),
          List.find?_cons_of_neg _ (by simp [hpx])]
        exact ih
      | false =>
        rw [List.filter_cons_of_neg (by simp [hfx]), List.find?_cons_of_neg _ (by simp [hpx])]
        exact ih

lemma find?_append_right {α : Type} (p : α → Bool) (l : List α) (y : α)
    (h : l.find? p = none) (hy : p y = true) :
    (l ++ [y]).find? p = some y := by
  induction l with
  | nil => simp [List.find?_cons, hy]
  | cons x xs ih =>
    rw [List.find?_cons] at h
    cases hpx : p x with
    | true => rw [hpx] at h; exact absurd h (by simp)
    | false =>
      rw [hpx] at h
      rw [List.cons_append, List.find?_cons_of_neg _ (by simp [hpx])]
      exact ih h

lemma find?_append_none {α : Type} (p : α → Bool) (l : List α) (y : α)
    (h : l.find? p = none) (hy : p y = false) :
    (l ++ [y]).find? p = none := by
  induction l with
  | nil => simp [List.find?_cons, hy]
  | cons x xs ih =>
    rw [List.find?_cons] at h
    cases hpx : p x with
    | true => rw [hpx] at h; exact absurd h (by simp)
    | false =>
      rw [hpx] at h
      rw [List.cons_append, List.find?_cons_of_neg _ (by simp [hpx])]
      exact ih h

lemma find?_map_replace_irrelevant {α : Type} (p : α → Bool) (q : α → Prop) [DecidablePred q]
    (y : α) (l : List α) (hy : p y = false) (hq : ∀ x, q x → p x = false) :
    (l.map fun x => if q x then y else x).find? p = l.find? p := by
  induction l with
  | nil => rfl
  | cons x xs ih =>
    by_cases hqx : q x
    · simp only [List.map_cons, if_pos hqx]
      rw [List.find?_cons_of_neg _ (by simp [hy]), List.find?_cons_of_neg _ (by simp [hq x hqx])]
      exact ih
    · simp only [List.map_cons, if_neg hqx]
      cases hpx : p x with
      | true =>
        rw [List.find?_cons_of_pos _ hpx, List.find?_cons_of_pos _ hpx]
      | false =>
        rw [List.find?_cons_of_neg _ (by simp [hpx]), List.find?_cons_of_neg _ (by simp [hpx])]
        exact ih

lemma find?_append_left {α : Type} (p : α → Bool) (l l2 : List α) {a : α}
    (h : l.find? p = some a) :
    (l ++ l2).find? p = some a := by
  induction l with
  | nil => simp at h
  | cons x xs ih =>
    cases hpx : p x with
    | true =>
      rw [List.find?_cons_of_pos _ hpx] at h
      rw [List.cons_append, List.find?_cons_of_pos _ hpx]
      exact h
    | false =>
      rw [List.find?_cons_of_neg _ (by simp [hpx])] at h
      rw [List.cons_append, List.find?_cons_of_neg _ (by simp [hpx])]
      exact ih h

/-! ### Lemmas about the portfolio and position repositories -/

lemma findPf_userId {l : List Portfolio} {u : Nat} {pf : Portfolio}
    (h : findPf l u = some pf) : pf.userId = u := by
  have := List.find?_some h
  simpa using this

lemma findPos_keys {l : List Position} {pid bid : Nat} {ps : Position}
    (h : findPos l pid bid = some ps) : ps.portfolioId = pid ∧ ps.bondId = bid := by
  have := List.find?_some h
  simpa using this

lemma findPf_savePf_self {l : List Portfolio} {u : Nat} {pf pf' : Portfolio}
    (h : findPf l u = some pf) (hid : pf'.id = pf.id) (hu : pf'.userId = u) :
    findPf (savePf l pf') u = some pf' := by
  unfold findPf savePf
  exact find?_map_replace_pos _ (fun x => x.id = pf'.id) pf' l (by simp [hu]) h hid.symm

lemma findPf_savePf_other {l : List Portfolio} {u : Nat} {pf pf' : Portfolio}
    (h : findPf l u = some pf) (hu : pf'.userId ≠ u) (hid : pf'.id ≠ pf.id) :
    findPf (savePf l pf') u = some pf := by
  unfold findPf savePf
  exact find?_map_replace_neg _ (fun x => x.id = pf'.id) pf' l (by simp [hu]) h
    (fun hh => hid (hh.symm))

lemma findPos_savePos_self {l : List Position} {ps' : Position} :
    findPos (savePos l ps') ps'.portfolioId ps'.bondId = some ps' := by
  unfold findPos savePos
  by_cases hany :
      l.any (fun x => decide (x.portfolioId = ps'.portfolioId) && decide (x.bondId = ps'.bondId))
  · rw [if_pos hany]
    rw [List.any_eq_true] at hany
    obtain ⟨x0, hx0, hpx0⟩ := hany
    have hsome : (l.find?
        (fun x => decide (x.portfolioId = ps'.portfolioId) && decide (x.bondId = ps'.bondId))).isSome := by
      rw [List.find?_isSome]
      exact ⟨x0, hx0, hpx0⟩
    obtain ⟨a, ha⟩ := Option.isSome_iff_exists.mp hsome
    have hqa := List.find?_some ha
    exact find?_map_replace_pos _
      (fun x => (decide (x.portfolioId = ps'.portfolioId) && decide (x.bondId = ps'.bondId)) = true)
      ps' l (by simp) ha hqa
  · rw [if_neg hany]
    apply find?_append_right
    · rw [List.find?_eq_none]
      intro x hx
      intro hpx
      exact hany (List.any_eq_true.mpr ⟨x, hx, hpx⟩)
    · simp

lemma findPos_savePos_ne {l : List Position} {pid bid : Nat} {ps' : Position}
    (hne : ¬ (ps'.portfolioId = pid ∧ ps'.bondId = bid)) :
    findPos (savePos l ps') pid bid = findPos l pid bid := by
  unfold findPos savePos
  have hyfalse : (decide (ps'.portfolioId = pid) && decide (ps'.bondId = bid)) = false := by
    rcases Decidable.not_and_iff_or_not.mp hne with hh | hh <;> simp [hh]
  by_cases hany :
      l.any (fun x => decide (x.portfolioId = ps'.portfolioId) && decide (x.bondId = ps'.bondId))
  · rw [if_pos hany]
    apply find?_map_replace_irrelevant
    · exact hyfalse
    · intro x hqx
      rw [Bool.and_eq_true, decide_eq_true_eq, decide_eq_true_eq] at hqx
      by_contra hcon
      rw [Bool.not_eq_false, Bool.and_eq_true, decide_eq_true_eq, decide_eq_true_eq] at hcon
      exact hne ⟨by rw [← hqx.1, hcon.1], by rw [← hqx.2, hcon.2]⟩
  · rw [if_neg hany]
    cases hf : l.find? (fun x => decide (x.portfolioId = pid) && decide (x.bondId = bid)) with
    | some a => exact find?_append_left _ _ _ hf
    | none => exact find?_append_none _ _ _ hf hyfalse

lemma findPos_removePos_self {l : List Position} {pid bid : Nat} :
    findPos (removePos l pid bid) pid bid = none := by
  unfold findPos removePos
  rw [List.find?_eq_none]
  intro x hx
  rw [List.mem_filter] at hx
  have h2 := hx.2
  rw [Bool.not_eq_true'] at h2
  simp [h2]

lemma findPos_removePos_ne {l : List Position} {pid bid pid' bid' : Nat}
    (hne : ¬ (pid' = pid ∧ bid' = bid)) :
    findPos (removePos l pid' bid') pid bid = findPos l pid bid := by
  unfold findPos removePos
  apply find?_filter_of_imp
  intro x hpx
  rw [Bool.and_eq_true, decide_eq_true_eq, decide_eq_true_eq] at hpx
  rw [Bool.not_eq_true']
  by_contra hcon
  rw [Bool.not_eq_false, Bool.and_eq_true, decide_eq_true_eq, decide_eq_true_eq] at hcon
  exact hne ⟨by rw [← hcon.1, hpx.1], by rw [← hcon.2, hpx.2]⟩

lemma buyerBasis_keys (db : DB) (pid bond : Nat) :
    (buyerBasis db pid bond).portfolioId = pid ∧ (buyerBasis db pid bond).bondId = bond := by
  unfold buyerBasis
  cases h : findPosition db pid bond with
  | none => simp
  | some ps => simpa using findPos_keys h

lemma newBuyerPos_keys (db : DB) (pid bond : Nat) (p : ℚ) (q : Nat) :
    (newBuyerPos db pid bond p q).portfolioId = pid ∧
      (newBuyerPos db pid bond p q).bondId = bond :=
  buyerBasis_keys db pid bond

lemma findPortfolio_savePosition (db : DB) (ps : Position) (u : Nat) :
    findPortfolio (savePosition db ps) u = findPortfolio db u :=
  rfl

lemma findPosition_savePosition_ne (db : DB) (ps : Position) (pid bid : Nat)
    (h : ¬ (ps.portfolioId = pid ∧ ps.bondId = bid)) :
    findPosition (savePosition db ps) pid bid = findPosition db pid bid :=
  findPos_savePos_ne h

lemma updatePositions_eq
    (db : DB) (b s : Order) (p : ℚ) (q : Nat)
    (bp sp : Portfolio) (spos : Position)
    (hbp : findPortfolio db b.userId = some bp)
    (hsp : findPortfolio db s.userId = some sp)
    (hpfids : bp.id ≠ sp.id)
    (hspos : findPosition db sp.id s.bondId = some spos) :
    updatePositions db b s p q =
      (if spos.qtyUnits - (q : Int) ≤ 0 then
        removePosition (savePosition db (newBuyerPos db bp.id b.bondId p q))
          spos.portfolioId spos.bondId
      else
        savePosition (savePosition db (newBuyerPos db bp.id b.bondId p q))
          { spos with qtyUnits := spos.qtyUnits - (q : Int) }, none) := by
  have hfind2 : findPosition (savePosition db (newBuyerPos db bp.id b.bondId p q))
      sp.id s.bondId = some spos := by
    rw [findPosition_savePosition_ne]
    · exact hspos
    · intro hcon
      exact hpfids ((newBuyerPos_keys db bp.id b.bondId p q).1.symm.trans hcon.1)
  simp only [updatePositions, hbp, findPortfolio_savePosition, hsp, hfind2]
  split <;> rfl

lemma updatePortfolios_eq
    (db : DB) (b s : Order) (p : ℚ) (q : Nat)
    (bp sp : Portfolio)
    (hbp : findPortfolio db b.userId = some bp)
    (hsp : findPortfolio db s.userId = some sp)
    (husers : b.userId ≠ s.userId)
    (hpfids : bp.id ≠ sp.id) :
    updatePortfolios db b s p q =
      (savePortfolio (savePortfolio db { bp with cashBalance := bp.cashBalance - p * (q : ℚ) })
        { sp with cashBalance := sp.cashBalance + p * (q : ℚ) }, none) := by
  have hbuid : bp.userId = b.userId := findPf_userId hbp
  have hfind1 : findPortfolio
      (savePortfolio db { bp with cashBalance := bp.cashBalance - p * (q : ℚ) }) s.userId
      = some sp := by
    unfold findPortfolio savePortfolio
    exact findPf_savePf_other hsp (by simpa [hbuid] using husers) hpfids
  simp only [updatePortfolios, hbp, hfind1]

lemma findPosition_savePosition_self (db : DB) (ps : Position) :
    findPosition (savePosition db ps) ps.portfolioId ps.bondId = some ps :=
  findPos_savePos_self

lemma findPosition_removePosition_self (db : DB) (pid bid : Nat) :
    findPosition (removePosition db pid bid) pid bid = none :=
  findPos_removePos_self

lemma findPosition_removePosition_ne (db : DB) {pid' bid' pid bid : Nat}
    (h : ¬ (pid' = pid ∧ bid' = bid)) :
    findPosition (removePosition db pid' bid') pid bid = findPosition db pid bid :=
  findPos_removePos_ne h

lemma findPosition_savePortfolio (db : DB) (pf : Portfolio) (pid bid : Nat) :
    findPosition (savePortfolio db pf) pid bid = findPosition db pid bid :=
  rfl

lemma findOrd_saveOrd_matching {l : List Order} {oid uid : Nat} {o o' : Order}
    (h : l.find? (fun x => decide (x.id = oid) && decide (x.userId = uid)) = some o)
    (hid : o'.id = o.id) (huid : o'.userId = o.userId) :
    (saveOrd l o').find? (fun x => decide (x.id = oid) && decide (x.userId = uid))
      = some o' := by
  have hpred := List.find?_some h
  rw [Bool.and_eq_true, decide_eq_true_eq, decide_eq_true_eq] at hpred
  have hmem : o ∈ l := List.mem_of_find?_eq_some h
  unfold saveOrd
  rw [if_pos (List.any_eq_true.mpr ⟨o, hmem, by simp [hid.symm]⟩)]
  exact find?_map_replace_pos _ (fun x => x.id = o'.id) o' l
    (by simp [hid, hpred.1, huid, hpred.2]) h (by rw [hid])

/-- A resting SELL LIMIT created strictly earlier (t=1) than the incoming
BUY LIMIT (t=2), for witnessing the corrected price rule: the trade should
execute at the resting order's limit of 4, not the incoming 5. -/
def sK : Order :=
  ⟨95, 2, 1, Side.SELL, OrderType.LIMIT, some 4, 2, 0, OStatus.OPEN, 1⟩

def bK : Order :=
  ⟨96, 1, 1, Side.BUY, OrderType.LIMIT, some 5, 2, 0, OStatus.OPEN, 2⟩

def dbK : DB :=
  { orders := [sK], trades := [], positions := [⟨2, 1, 2, 1⟩],
    portfolios := [⟨1, 1, 10⟩, ⟨2, 2, 0⟩] }

/-- The trade the K scenario produces: 2 units at the resting order's
price 4. -/
def tK : Trade :=
  ⟨96, 95, 1, 4, 2⟩

/-- The relation between an incoming order `o`, a resting order `r` it
matched, and the resulting trade `t`, as `executeTrade` computes it when
called positionally with the incoming order in the `buyOrder` slot
(seed.ts line 176): the price compares the two `createdAt` fields with the
incoming order winning ties, the incoming order's id is recorded as
`buyOrderId` and the resting order's id as `sellOrderId`, regardless of
the two orders' actual sides. -/
def tradeLink (o r : Order) (t : Trade) : Prop :=
  t.pricePerUnit =
    jsNum (if o.createdAt ≤ r.createdAt then o.priceLimit else r.priceLimit) ∧
  t.buyOrderId = o.id ∧
  t.sellOrderId = r.id

/-! ### Lemmas about matching and the order book -/

lemma executeTrade_buyOrder (db : DB) (b s : Order) :
    (executeTrade db b s).buyOrder =
      { b with qtyFilledUnits :=
          b.qtyFilledUnits + min (b.qtyUnits - b.qtyFilledUnits) (s.qtyUnits - s.qtyFilledUnits) } :=
  rfl

lemma executeTrade_sellOrder (db : DB) (b s : Order) :
    (executeTrade db b s).sellOrder =
      { s with qtyFilledUnits :=
          s.qtyFilledUnits + min (b.qtyUnits - b.qtyFilledUnits) (s.qtyUnits - s.qtyFilledUnits) } :=
  rfl

lemma executeTrade_trade (db : DB) (b s : Order) :
    (executeTrade db b s).trade =
      { buyOrderId := b.id, sellOrderId := s.id, bondId := b.bondId
        pricePerUnit := jsNum (if b.createdAt ≤ s.createdAt then b.priceLimit else s.priceLimit)
        qtyUnits := min (b.qtyUnits - b.qtyFilledUnits) (s.qtyUnits - s.qtyFilledUnits) } :=
  rfl

lemma updatePositions_orders (db : DB) (b s : Order) (p : ℚ) (q : Nat) :
    (updatePositions db b s p q).1.orders = db.orders := by
  unfold updatePositions
  cases findPortfolio db b.userId with
  | none => rfl
  | some bp =>
    dsimp only
    cases findPortfolio (savePosition db (newBuyerPos db bp.id b.bondId p q)) s.userId with
    | none => rfl
    | some sp =>
      dsimp only
      cases findPosition (savePosition db (newBuyerPos db bp.id b.bondId p q)) sp.id s.bondId with
      | none => rfl
      | some spos =>
        dsimp only
        split <;> rfl

lemma updatePortfolios_orders (db : DB) (b s : Order) (p : ℚ) (q : Nat) :
    (updatePortfolios db b s p q).1.orders = db.orders := by
  unfold updatePortfolios
  cases findPortfolio db b.userId with
  | none => rfl
  | some bp =>
    dsimp only
    cases findPortfolio
        (savePortfolio db { bp with cashBalance := bp.cashBalance - p * (q : ℚ) }) s.userId with
    | none => rfl
    | some sp => rfl

lemma execStep_orders (db1 : DB) (b s : Order) (p : ℚ) (q : Nat) :
    (match updatePositions db1 b s p q with
      | (db2, some e) => (db2, some e)
      | (db2, none) => updatePortfolios db2 b s p q).1.orders = db1.orders := by
  cases hup : updatePositions db1 b s p q with
  | mk db2 e =>
    cases e with
    | none =>
      dsimp only
      rw [updatePortfolios_orders]
      have := updatePositions_orders db1 b s p q
      rw [hup] at this
      exact this
    | some e =>
      dsimp only
      have := updatePositions_orders db1 b s p q
      rw [hup] at this
      exact this

lemma executeTrade_db_orders (db : DB) (b s : Order) :
    (executeTrade db b s).db.orders = db.orders := by
  unfold executeTrade
  exact execStep_orders _ _ _ _ _

lemma matchLoop_orders (opps : List Order) :
    ∀ (db : DB) (o : Order) (acc : List Trade),
      (matchLoop db o opps acc).db.orders = db.orders := by
  induction opps with
  | nil => intro db o acc; rfl
  | cons r rest ih =>
    intro db o acc
    unfold matchLoop
    split
    · rfl
    · split
      · exact ih db o acc
      · split
        · dsimp only
          cases herr : (executeTrade db o r).err with
          | some e =>
            dsimp only
            exact executeTrade_db_orders db _ _
          | none =>
            dsimp only
            rw [ih]
            exact executeTrade_db_orders db _ _
        · exact ih db o acc

lemma matchLoop_order_core (opps : List Order) :
    ∀ (db : DB) (o : Order) (acc : List Trade),
      (matchLoop db o opps acc).order.id = o.id ∧
      (matchLoop db o opps acc).order.side = o.side ∧
      (matchLoop db o opps acc).order.orderType = o.orderType ∧
      (matchLoop db o opps acc).order.qtyUnits = o.qtyUnits ∧
      (matchLoop db o opps acc).order.bondId = o.bondId ∧
      (matchLoop db o opps acc).order.priceLimit = o.priceLimit ∧
      (matchLoop db o opps acc).order.createdAt = o.createdAt := by
  induction opps with
  | nil => intro db o acc; exact ⟨rfl, rfl, rfl, rfl, rfl, rfl, rfl⟩
  | cons r rest ih =>
    intro db o acc
    unfold matchLoop
    split
    · exact ⟨rfl, rfl, rfl, rfl, rfl, rfl, rfl⟩
    · split
      · exact ih db o acc
      · split
        · dsimp only
          cases herr : (executeTrade db o r).err with
          | some e =>
            dsimp only
            simp [executeTrade_buyOrder]
          | none =>
            dsimp only
            have hcore := ih ((executeTrade db o r).db) ((executeTrade db o r).buyOrder)
              (acc ++ [(executeTrade db o r).trade])
            simpa [executeTrade_buyOrder] using hcore
        · exact ih db o acc

lemma saveOrd_append (l : List Order) (o : Order) (h : ∀ x ∈ l, x.id ≠ o.id) :
    saveOrd l o = l ++ [o] := by
  unfold saveOrd
  rw [if_neg]
  intro hany
  rw [List.any_eq_true] at hany
  obtain ⟨x, hx, hpx⟩ := hany
  exact h x hx (by simpa using hpx)

lemma mem_getOpenOrders {db : DB} {bond : Nat} {side : Side} {x : Order}
    (hx : x ∈ getOpenOrders db bond side) :
    x ∈ db.orders ∧ x.status = OStatus.OPEN ∧ x.bondId = bond ∧ x.side = side := by
  unfold getOpenOrders at hx
  rw [List.mem_insertionSort] at hx
  rw [List.mem_filter] at hx
  refine ⟨hx.1, ?_, ?_, ?_⟩ <;>
    · have hp := hx.2
      simp only [Bool.and_eq_true, decide_eq_true_eq] at hp
      tauto

lemma mem_addToLevels {acc : List OrderBookLevel} {o : Order} {lvl : OrderBookLevel}
    {x : Order} (hlvl : lvl ∈ addToLevels acc o) (hx : x ∈ lvl.orders) :
    (∃ l0 ∈ acc, x ∈ l0.orders) ∨ x = o := by
  unfold addToLevels at hlvl
  dsimp only at hlvl
  split at hlvl
  · rw [List.mem_map] at hlvl
    obtain ⟨l0, hl0, rfl⟩ := hlvl
    by_cases hp : l0.price = jsNum o.priceLimit
    · rw [if_pos hp] at hx
      dsimp only at hx
      rcases List.mem_append.mp hx with hmem | hmem
      · exact Or.inl ⟨l0, hl0, hmem⟩
      · exact Or.inr (by simpa using hmem)
    · rw [if_neg hp] at hx
      exact Or.inl ⟨l0, hl0, hx⟩
  · rcases List.mem_append.mp hlvl with hmem | hmem
    · exact Or.inl ⟨lvl, hmem, hx⟩
    · have : lvl = { price := jsNum o.priceLimit
                     quantity := (o.qtyUnits : Int) - (o.qtyFilledUnits : Int)
                     orders := [o] } := by simpa using hmem
      subst this
      exact Or.inr (by simpa using hx)

lemma mem_addToLevels_foldl (l : List Order) :
    ∀ (acc : List OrderBookLevel) (lvl : OrderBookLevel) (x : Order),
      lvl ∈ l.foldl addToLevels acc → x ∈ lvl.orders →
      (∃ l0 ∈ acc, x ∈ l0.orders) ∨ x ∈ l := by
  induction l with
  | nil =>
    intro acc lvl x hlvl hx
    exact Or.inl ⟨lvl, hlvl, hx⟩
  | cons o rest ih =>
    intro acc lvl x hlvl hx
    rw [List.foldl_cons] at hlvl
    rcases ih (addToLevels acc o) lvl x hlvl hx with ⟨l0, hl0, hxl0⟩ | hmem
    · rcases mem_addToLevels hl0 hxl0 with h | h
      · exact Or.inl h
      · exact Or.inr (by simp [h])
    · exact Or.inr (List.mem_cons_of_mem _ hmem)

lemma mem_getOrderBookSide {db : DB} {bond : Nat} {side : Side} {lvl : OrderBookLevel}
    {x : Order} (hlvl : lvl ∈ getOrderBookSide db bond side) (hx : x ∈ lvl.orders) :
    x ∈ db.orders ∧ x.status = OStatus.OPEN := by
  unfold getOrderBookSide at hlvl
  rw [List.mem_insertionSort] at hlvl
  rcases mem_addToLevels_foldl (getOpenOrders db bond side) [] lvl x hlvl hx with
    ⟨l0, hl0, _⟩ | hmem
  · simp at hl0
  · have := mem_getOpenOrders hmem
    exact ⟨this.1, this.2.1⟩

lemma matchOrder_orders (db : DB) (o : Order) :
    (matchOrder db o).db.orders = db.orders := by
  unfold matchOrder
  exact matchLoop_orders _ db o []

lemma matchOrder_order_core (db : DB) (o : Order) :
    (matchOrder db o).order.id = o.id ∧
    (matchOrder db o).order.side = o.side ∧
    (matchOrder db o).order.orderType = o.orderType ∧
    (matchOrder db o).order.qtyUnits = o.qtyUnits ∧
    (matchOrder db o).order.bondId = o.bondId ∧
    (matchOrder db o).order.priceLimit = o.priceLimit ∧
    (matchOrder db o).order.createdAt = o.createdAt :=
  matchLoop_order_core (getOpenOrders db o.bondId (oppositeOf o.side)) db o []

lemma addOrder_db_orders (db : DB) (o : Order) :
    (addOrder db o).db.orders = saveOrd db.orders (addOrder db o).order := by
  unfold addOrder
  cases validateOrder db o with
  | error e => rfl
  | ok u =>
    dsimp only
    cases (matchOrder db o).err with
    | some e =>
      show saveOrd (matchOrder db o).db.orders _ = _
      rw [matchOrder_orders]
    | none =>
      show saveOrd (matchOrder db o).db.orders _ = _
      rw [matchOrder_orders]

lemma addOrder_order (db : DB) (o : Order) :
    (addOrder db o).order =
      (match validateOrder db o with
       | Except.error _ => { o with status := OStatus.CANCELLED }
       | Except.ok _ =>
         match (matchOrder db o).err with
         | some _ => { (matchOrder db o).order with status := OStatus.CANCELLED }
         | none =>
           { (matchOrder db o).order with
               status := finalStatus (matchOrder db o).order }) := by
  unfold addOrder
  cases validateOrder db o with
  | error e => rfl
  | ok u =>
    dsimp only
    cases (matchOrder db o).err with
    | some e => rfl
    | none => rfl

lemma addOrder_err (db : DB) (o : Order) :
    (addOrder db o).err =
      (match validateOrder db o with
       | Except.error e => some e
       | Except.ok _ => (matchOrder db o).err) := by
  unfold addOrder
  cases validateOrder db o with
  | error e => rfl
  | ok u =>
    dsimp only
    cases (matchOrder db o).err with
    | some e => rfl
    | none => rfl

lemma addOrder_trades_sub (db : DB) (o : Order) :
    ∀ t ∈ (addOrder db o).trades, t ∈ (matchOrder db o).trades := by
  intro t
  unfold addOrder
  cases validateOrder db o with
  | error e =>
    intro ht
    simp at ht
  | ok u =>
    dsimp only
    cases (matchOrder db o).err with
    | some e => exact fun ht => ht
    | none => exact fun ht => ht

lemma book_fresh_of_saved {dbbase : DB} {o2 : Order} {oid : Nat}
    (hid : o2.id = oid) (hstat : o2.status ≠ OStatus.OPEN)
    (hfresh : ∀ r ∈ dbbase.orders, r.id ≠ oid)
    {dbres : DB} (horders : dbres.orders = saveOrd dbbase.orders o2) :
    ∀ bond side lvl x, lvl ∈ getOrderBookSide dbres bond side → x ∈ lvl.orders →
      x.id ≠ oid := by
  intro bond side lvl x hlvl hx
  have hmem := mem_getOrderBookSide hlvl hx
  rw [horders] at hmem
  rw [saveOrd_append _ _ (fun y hy => by rw [hid]; exact hfresh y hy)] at hmem
  rcases List.mem_append.mp hmem.1 with hmemL | hmemR
  · exact hfresh x hmemL
  · have hxo : x = o2 := by simpa using hmemR
    rw [hxo] at hmem
    exact absurd hmem.2 hstat

lemma matchLoop_trades (opps : List Order) :
    ∀ (db : DB) (o : Order) (acc : List Trade),
      ∀ t ∈ (matchLoop db o opps acc).trades,
        t ∈ acc ∨ ∃ r ∈ opps, tradeLink o r t := by
  induction opps with
  | nil =>
    intro db o acc t ht
    exact Or.inl ht
  | cons r rest ih =>
    intro db o acc t ht
    unfold matchLoop at ht
    split at ht
    · exact Or.inl ht
    · split at ht
      · rcases ih db o acc t ht with h | hex
        · exact Or.inl h
        · obtain ⟨q, hq, hl⟩ := hex
          exact Or.inr ⟨q, List.mem_cons_of_mem _ hq, hl⟩
      · split at ht
        · dsimp only at ht
          cases herr : (executeTrade db o r).err with
          | some e =>
            rw [herr] at ht
            dsimp only at ht
            rcases List.mem_append.mp ht with hL | hR
            · exact Or.inl hL
            · have hte : t = (executeTrade db o r).trade := by simpa using hR
              refine Or.inr ⟨r, List.mem_cons_self r rest, ?_⟩
              simp [hte, executeTrade_trade, tradeLink]
          | none =>
            rw [herr] at ht
            dsimp only at ht
            rcases ih _ _ _ t ht with h | hex
            · rcases List.mem_append.mp h with hL | hR
              · exact Or.inl hL
              · have hte : t = (executeTrade db o r).trade := by simpa using hR
                refine Or.inr ⟨r, List.mem_cons_self r rest, ?_⟩
                simp [hte, executeTrade_trade, tradeLink]
            · obtain ⟨q, hq, hl⟩ := hex
              refine Or.inr ⟨q, List.mem_cons_of_mem _ hq, ?_⟩
              simpa [tradeLink, executeTrade_buyOrder] using hl
        · rcases ih db o acc t ht with h | hex
          · exact Or.inl h
          · obtain ⟨q, hq, hl⟩ := hex
            exact Or.inr ⟨q, List.mem_cons_of_mem _ hq, hl⟩

/-! ### Theorems -/

/-- C9: settlement of one trade at price `p` and quantity `q` — the pair of
calls `updatePositions` then `updatePortfolios` that `executeTrade` makes —
applies exactly the four claimed effects when the buyer and seller are
distinct users with portfolios and the seller holds at least `q` units:
buyer cash decreases by `p*q`, seller cash increases by `p*q`, the seller
position decreases by `q` (the record being removed when it reaches zero),
and the buyer position increases by `q` with its volume weighted average
price recomputed as `(oldAvg*oldQty + p*q) / (oldQty+q)` (old quantity and
average being 0 when the buyer had no position). -/
theorem C9_settlement_effects
    (db : DB) (b s : Order) (p : ℚ) (q : Nat) (bond : Nat)
    (bp sp : Portfolio) (spos : Position)
    (hbbond : b.bondId = bond) (hsbond : s.bondId = bond)
    (hbp : findPortfolio db b.userId = some bp)
    (hsp : findPortfolio db s.userId = some sp)
    (husers : b.userId ≠ s.userId)
    (hpfids : bp.id ≠ sp.id)
    (hspos : findPosition db sp.id bond = some spos)
    (hq : (q : Int) ≤ spos.qtyUnits)
    (hq0 : 0 < q) :
    (updatePositions db b s p q).2 = none ∧
    (updatePortfolios (updatePositions db b s p q).1 b s p q).2 = none ∧
    findPosition (updatePortfolios (updatePositions db b s p q).1 b s p q).1 bp.id bond =
      some (newBuyerPos db bp.id bond p q) ∧
    (newBuyerPos db bp.id bond p q).qtyUnits = (buyerBasis db bp.id bond).qtyUnits + (q : Int) ∧
    (newBuyerPos db bp.id bond p q).avgPricePerUnit =
      ((buyerBasis db bp.id bond).avgPricePerUnit * ((buyerBasis db bp.id bond).qtyUnits : ℚ)
        + p * (q : ℚ)) / (((buyerBasis db bp.id bond).qtyUnits + (q : Int) : Int) : ℚ) ∧
    (spos.qtyUnits = (q : Int) →
      findPosition (updatePortfolios (updatePositions db b s p q).1 b s p q).1 sp.id bond
        = none) ∧
    ((q : Int) < spos.qtyUnits →
      findPosition (updatePortfolios (updatePositions db b s p q).1 b s p q).1 sp.id bond
        = some { spos with qtyUnits := spos.qtyUnits - (q : Int) }) ∧
    findPortfolio (updatePortfolios (updatePositions db b s p q).1 b s p q).1 b.userId =
      some { bp with cashBalance := bp.cashBalance - p * (q : ℚ) } ∧
    findPortfolio (updatePortfolios (updatePositions db b s p q).1 b s p q).1 s.userId =
      some { sp with cashBalance := sp.cashBalance + p * (q : ℚ) } := by
  subst hbbond
  have hbuid : bp.userId = b.userId := findPf_userId hbp
  have hsuid : sp.userId = s.userId := findPf_userId hsp
  have hspos' : findPosition db sp.id s.bondId = some spos := by rw [hsbond]; exact hspos
  have hkeys := findPos_keys hspos'
  have hup := updatePositions_eq db b s p q bp sp spos hbp hsp hpfids hspos'
  have hdb1pf : (updatePositions db b s p q).1.portfolios = db.portfolios := by
    rw [hup]
    dsimp only
    split <;> rfl
  have hbp1 : findPortfolio (updatePositions db b s p q).1 b.userId = some bp := by
    unfold findPortfolio
    rw [hdb1pf]
    exact hbp
  have hsp1 : findPortfolio (updatePositions db b s p q).1 s.userId = some sp := by
    unfold findPortfolio
    rw [hdb1pf]
    exact hsp
  have hupf := updatePortfolios_eq (updatePositions db b s p q).1 b s p q bp sp hbp1 hsp1
    husers hpfids
  have hfinpos : ∀ pid bid,
      findPosition (updatePortfolios (updatePositions db b s p q).1 b s p q).1 pid bid
        = findPosition (updatePositions db b s p q).1 pid bid := by
    intro pid bid
    rw [hupf]
    dsimp only
    rw [findPosition_savePortfolio, findPosition_savePortfolio]
  refine ⟨?_, ?_, ?_, rfl, rfl, ?_, ?_, ?_, ?_⟩
  · rw [hup]
  · rw [hupf]
  · rw [hfinpos, hup]
    dsimp only
    have hne1 : ¬ (spos.portfolioId = bp.id ∧ spos.bondId = b.bondId) := by
      intro hcon
      exact hpfids (by rw [← hcon.1, hkeys.1])
    have hself := findPosition_savePosition_self db (newBuyerPos db bp.id b.bondId p q)
    rw [(newBuyerPos_keys db bp.id b.bondId p q).1,
      (newBuyerPos_keys db bp.id b.bondId p q).2] at hself
    split
    · rw [findPosition_removePosition_ne _ hne1]
      exact hself
    · rw [findPosition_savePosition_ne _ { spos with qtyUnits := spos.qtyUnits - (q : Int) }
        bp.id b.bondId hne1]
      exact hself
  · intro heq
    rw [hfinpos, hup]
    dsimp only
    rw [if_pos (by omega : spos.qtyUnits - (q : Int) ≤ 0)]
    rw [hkeys.1, hkeys.2, hsbond]
    exact findPosition_removePosition_self _ sp.id b.bondId
  · intro hlt
    rw [hfinpos, hup]
    dsimp only
    rw [if_neg (by omega : ¬ spos.qtyUnits - (q : Int) ≤ 0)]
    rw [hkeys.1, hkeys.2, hsbond]
    exact findPosition_savePosition_self _ _
  · rw [hupf]
    dsimp only
    unfold findPortfolio savePortfolio
    have hinner : findPf (savePf (updatePositions db b s p q).1.portfolios
        { bp with cashBalance := bp.cashBalance - p * (q : ℚ) }) b.userId
        = some { bp with cashBalance := bp.cashBalance - p * (q : ℚ) } :=
      @findPf_savePf_self _ _ bp _ hbp1 rfl hbuid
    exact findPf_savePf_other hinner (by simpa [hsuid] using husers.symm)
      (fun hh => hpfids (hh.symm))
  · rw [hupf]
    dsimp only
    unfold findPortfolio savePortfolio
    have hinner : findPf (savePf (updatePositions db b s p q).1.portfolios
        { bp with cashBalance := bp.cashBalance - p * (q : ℚ) }) s.userId
        = some sp :=
      findPf_savePf_other hsp1 (by simpa [hbuid] using husers) hpfids
    exact @findPf_savePf_self _ _ sp _ hinner rfl hsuid


/-- C8 (amended): `cancelOrder` returns a bare boolean.  It returns `false`
with no state change when no order with the requested id and owner exists,
and when the found order's status is anything other than OPEN — including
PARTIAL, EXECUTED and CANCELLED.  Only an OPEN order owned by the requester
is transitioned to CANCELLED with result `true`; cancelling it again
returns `false` and changes nothing, so repeated calls have no further
effect. -/
theorem C8_cancel_contract (db : DB) (orderId userId : Nat) :
    ((cancelOrder db orderId userId).2 = false → (cancelOrder db orderId userId).1 = db) ∧
    (db.orders.find? (fun o => decide (o.id = orderId) && decide (o.userId = userId)) = none →
      cancelOrder db orderId userId = (db, false)) ∧
    ∀ o, db.orders.find? (fun o => decide (o.id = orderId) && decide (o.userId = userId))
        = some o →
      (o.status ≠ OStatus.OPEN → cancelOrder db orderId userId = (db, false)) ∧
      (o.status = OStatus.OPEN →
        cancelOrder db orderId userId =
          (saveOrder db { o with status := OStatus.CANCELLED }, true) ∧
        cancelOrder (saveOrder db { o with status := OStatus.CANCELLED }) orderId userId =
          (saveOrder db { o with status := OStatus.CANCELLED }, false)) := by
  refine ⟨?_, ?_, ?_⟩
  · intro hfalse
    cases hf : db.orders.find?
        (fun o => decide (o.id = orderId) && decide (o.userId = userId)) with
    | none => simp [cancelOrder, hf]
    | some o =>
      by_cases hst : o.status = OStatus.OPEN
      · simp only [cancelOrder, hf, if_pos hst] at hfalse
        exact absurd hfalse (by decide)
      · simp [cancelOrder, hf, hst]
  · intro hf
    simp [cancelOrder, hf]
  · intro o hf
    refine ⟨fun hst => by simp [cancelOrder, hf, hst], fun hst => ⟨by simp [cancelOrder, hf, hst], ?_⟩⟩
    have hf2 := @findOrd_saveOrd_matching db.orders orderId userId o
      { o with status := OStatus.CANCELLED } hf rfl rfl
    have horders : (saveOrder db { o with status := OStatus.CANCELLED }).orders
        = saveOrd db.orders { o with status := OStatus.CANCELLED } := rfl
    simp [cancelOrder, horders, hf2]

theorem C9_settlement_effects_witness :
    (updatePositions dbW bW sW 3 5).2 = none ∧
    (updatePortfolios (updatePositions dbW bW sW 3 5).1 bW sW 3 5).2 = none ∧
    findPosition (updatePortfolios (updatePositions dbW bW sW 3 5).1 bW sW 3 5).1 1 1 =
      some (newBuyerPos dbW 1 1 3 5) ∧
    findPosition (updatePortfolios (updatePositions dbW bW sW 3 5).1 bW sW 3 5).1 2 1 = none ∧
    findPortfolio (updatePortfolios (updatePositions dbW bW sW 3 5).1 bW sW 3 5).1 1 =
      some ⟨1, 1, 9 - 3 * ((5 : Nat) : ℚ)⟩ ∧
    findPortfolio (updatePortfolios (updatePositions dbW bW sW 3 5).1 bW sW 3 5).1 2 =
      some ⟨2, 2, 0 + 3 * ((5 : Nat) : ℚ)⟩ := by
  have h := C9_settlement_effects dbW bW sW 3 5 1 ⟨1, 1, 9⟩ ⟨2, 2, 0⟩ ⟨2, 1, 5, 2⟩
    rfl rfl (by decide) (by decide) (by decide) (by decide) (by decide) (by decide) (by decide)
  exact ⟨h.1, h.2.1, h.2.2.1, h.2.2.2.2.2.1 (by decide),
    h.2.2.2.2.2.2.2.1, h.2.2.2.2.2.2.2.2⟩

set_option maxRecDepth 2000 in
/-- C1: the claim says a partially filled LIMIT order's remainder keeps
resting on the book and is matchable by later opposite-side orders, and in
the spec's scenario the SELL MARKET 50 should execute against B1's resting
50 at 99.  The code filters resting orders by `status = 'OPEN'` only, so
after B1 (order 11) is saved PARTIAL with 100 of 150 filled it is absent
from the BUY side of the book, and the subsequent SELL MARKET 50 (order 12)
matches nothing and is CANCELLED instead of executing. -/
theorem C1_partial_remainder_unmatchable :
    runA2.err = none ∧
    runA2.order.id = 11 ∧
    runA2.order.status = OStatus.PARTIAL ∧
    runA2.order.qtyUnits = 150 ∧
    runA2.order.qtyFilledUnits = 100 ∧
    getOrderBookSide runA2.db 1 Side.BUY = [] ∧
    runA3.err = none ∧
    runA3.trades = [] ∧
    runA3.order.status = OStatus.CANCELLED :=
  ⟨by with_unfolding_all decide, by with_unfolding_all decide, by with_unfolding_all decide,
   by with_unfolding_all decide, by with_unfolding_all decide, by with_unfolding_all decide,
   by with_unfolding_all decide, by with_unfolding_all decide, by with_unfolding_all decide⟩

set_option maxRecDepth 2000 in
/-- C2: the claim says both orders' filled quantities are durably updated
by each match and a fully filled resting order is removed from the book and
marked EXECUTED.  In the run where B1 buys 100 units from resting order 10
(one trade of 100 at 98), the stored row of order 10 afterwards still has
`qtyFilledUnits = 0` and status OPEN — the in-memory update of the resting
order is never saved — and the SELL book still lists it with its full
quantity of 100. -/
theorem C2_resting_fill_not_persisted :
    runA2.trades = [⟨11, 10, 1, 98, 100⟩] ∧
    runA2.db.orders.find? (fun o => decide (o.id = 10)) = some s1A ∧
    s1A.qtyFilledUnits = 0 ∧
    s1A.status = OStatus.OPEN ∧
    getOrderBookSide runA2.db 1 Side.SELL = [⟨98, 100, [s1A]⟩] :=
  ⟨by with_unfolding_all decide, by with_unfolding_all decide, by with_unfolding_all decide,
   by with_unfolding_all decide, by with_unfolding_all decide⟩

set_option maxRecDepth 2000 in
/-- C3 counterexample: the claim says the execution price always equals the
resting order's limit price, regardless of the two orders' creation
timestamps.  With resting SELL order 20 (limit 98, t=5) and incoming BUY
order 21 (limit 99, also t=5), the code prices the trade with
`buyOrder.createdAt <= sellOrder.createdAt` where `buyOrder` is the
incoming order (`matchOrder` passes it positionally), so the tie goes to
the incoming order and the trade executes at 99, not at the resting
order's 98. -/
theorem C3_tie_goes_to_incoming_order :
    runB2.err = none ∧
    runB2.trades = [⟨21, 20, 1, 99, 50⟩] ∧
    sRestB.priceLimit = some 98 ∧
    (99 : ℚ) ≠ 98 :=
  ⟨by with_unfolding_all decide, by with_unfolding_all decide,
   by with_unfolding_all decide, by with_unfolding_all decide⟩

set_option maxRecDepth 2000 in
/-- C4: the claim says total units of a bond across all positions are
conserved by every match.  User 2 holds 100 units and rests two SELL LIMIT
orders of 100 units each (both pass validation, which reads the unreserved
position); user 1 then buys 200.  The second fill finds no seller position
(it was removed by the first) and silently skips the decrement while still
crediting the buyer, so total units of bond 1 grow from 100 to 200. -/
theorem C4_units_created_by_oversell :
    runC1.err = none ∧
    runC2.err = none ∧
    runC3.err = none ∧
    totalUnits dbC 1 = 100 ∧
    totalUnits runC3.db 1 = 200 :=
  ⟨by with_unfolding_all decide, by with_unfolding_all decide, by with_unfolding_all decide,
   by with_unfolding_all decide, by with_unfolding_all decide⟩

set_option maxRecDepth 2000 in
/-- C5: the claim says no sequence of validated submissions can drive any
user's cash below 0.  A MARKET BUY has `priceLimit = null`, so validation
checks cash against `(null || 0) * qty = 0`; user 1 with 0 cash passes
validation, buys 10 units at 7 from the resting SELL, and ends with cash
-70. -/
theorem C5_market_buy_drives_cash_negative :
    runD1.err = none ∧
    runD2.err = none ∧
    findPortfolio runD2.db 1 = some ⟨1, 1, -70⟩ ∧
    (-70 : ℚ) < 0 :=
  ⟨by with_unfolding_all decide, by with_unfolding_all decide,
   by with_unfolding_all decide, by with_unfolding_all decide⟩

set_option maxRecDepth 2000 in
/-- C6 counterexample: the claim says a MARKET BUY is validated against an
estimate from the best resting ask and rejected with NoLiquidity before any
matching when the opposite book is empty.  With an empty book and a buyer
holding 0 cash (below any positive estimate), validation succeeds, no error
is raised at all, and the order simply falls through the empty matching
loop into status CANCELLED. -/
theorem C6_no_liquidity_check :
    getOpenOrders dbE 1 Side.SELL = [] ∧
    validateOrder dbE bE = Except.ok () ∧
    (addOrder dbE bE).err = none ∧
    (addOrder dbE bE).trades = [] ∧
    (addOrder dbE bE).order.status = OStatus.CANCELLED :=
  ⟨by with_unfolding_all decide, by with_unfolding_all rfl, by with_unfolding_all decide,
   by with_unfolding_all decide, by with_unfolding_all decide⟩

set_option maxRecDepth 2000 in
/-- C7 counterexample: the claim says a MARKET order with an unfilled
remainder is finalized CANCELLED even when part of it filled.  A MARKET BUY
of 100 units (order 62) against a resting SELL of 50 fills 50 and is
finalized with status PARTIAL, not CANCELLED. -/
theorem C7_partial_market_not_cancelled :
    mF.orderType = OrderType.MARKET ∧
    runF2.err = none ∧
    runF2.order.qtyFilledUnits = 50 ∧
    runF2.order.qtyUnits = 100 ∧
    runF2.order.status = OStatus.PARTIAL ∧
    OStatus.PARTIAL ≠ OStatus.CANCELLED :=
  ⟨by with_unfolding_all decide, by with_unfolding_all decide, by with_unfolding_all decide,
   by with_unfolding_all decide, by with_unfolding_all decide, by with_unfolding_all decide⟩

set_option maxRecDepth 2000 in
/-- C8 counterexample: the claim says cancellation of a PARTIAL order
succeeds, removing the unfilled remainder and transitioning the order to
CANCELLED.  Order 71 is PARTIAL (50 of 100 filled) and owned by the
requesting user 1, yet `cancelOrder` refuses it (it accepts only OPEN
orders), returns `false`, and changes nothing. -/
theorem C8_partial_cancel_refused :
    dbG.orders = [ordG] ∧
    ordG.id = 71 ∧
    ordG.userId = 1 ∧
    ordG.status = OStatus.PARTIAL ∧
    cancelOrder dbG 71 1 = (dbG, false) :=
  ⟨by with_unfolding_all decide, by with_unfolding_all decide, by with_unfolding_all decide,
   by with_unfolding_all decide, by with_unfolding_all decide⟩

set_option maxRecDepth 2000 in
lemma selfTrade_first_err : (addOrder dbJ sJ).err = none := by
  with_unfolding_all decide

set_option maxRecDepth 2000 in
lemma selfTrade_first_orders : (addOrder dbJ sJ).db.orders = dbJmid.orders := by
  with_unfolding_all decide

set_option maxRecDepth 2000 in
lemma selfTrade_first_trades : (addOrder dbJ sJ).db.trades = dbJmid.trades := by
  with_unfolding_all decide

set_option maxRecDepth 2000 in
lemma selfTrade_first_positions : (addOrder dbJ sJ).db.positions = dbJmid.positions := by
  with_unfolding_all decide

set_option maxRecDepth 2000 in
lemma selfTrade_first_portfolios : (addOrder dbJ sJ).db.portfolios = dbJmid.portfolios := by
  with_unfolding_all decide

set_option maxRecDepth 2000 in
lemma selfTrade_err : runJ2.err = none := by
  with_unfolding_all decide

set_option maxRecDepth 2000 in
lemma selfTrade_trades : runJ2.trades = [⟨92, 91, 1, 1, 2⟩] := by
  with_unfolding_all decide

set_option maxRecDepth 2000 in
lemma selfTrade_owners : runJ2.db.orders.map (fun o => (o.id, o.userId)) = [(91, 1), (92, 1)] := by
  with_unfolding_all decide

set_option maxRecDepth 2000 in
lemma selfTrade_cash_preserved : runJ2.db.portfolios = dbJ.portfolios := by
  with_unfolding_all decide

set_option maxRecDepth 2000 in
lemma selfTrade_qty_preserved :
    runJ2.db.positions.map (fun p => (p.portfolioId, p.bondId, p.qtyUnits)) =
      dbJ.positions.map (fun p => (p.portfolioId, p.bondId, p.qtyUnits)) := by
  with_unfolding_all decide

set_option maxRecDepth 2000 in
lemma selfTrade_avg : runJ2.db.positions.map
    (fun p => (p.avgPricePerUnit.num, p.avgPricePerUnit.den)) = [(17, 5)] := by
  with_unfolding_all decide

/-- C10: there is no self-trade prevention.  User 1 rests SELL order 91 and
then submits crossing BUY order 92 in state `dbJmid`; the two match and
settle, producing a trade between order 92 and order 91 — both owned by
user 1 — after which the user's portfolio row is unchanged (debited and
credited by the same amount 2) and the position again holds its initial 3
units (only the volume weighted average price moved, to 17/5). -/
theorem C10_self_trade_possible :
    (addOrder dbJ sJ).err = none ∧
    (addOrder dbJ sJ).db.orders = dbJmid.orders ∧
    (addOrder dbJ sJ).db.trades = dbJmid.trades ∧
    (addOrder dbJ sJ).db.positions = dbJmid.positions ∧
    (addOrder dbJ sJ).db.portfolios = dbJmid.portfolios ∧
    runJ2.err = none ∧
    runJ2.trades = [⟨92, 91, 1, 1, 2⟩] ∧
    runJ2.db.orders.map (fun o => (o.id, o.userId)) = [(91, 1), (92, 1)] ∧
    runJ2.db.portfolios = dbJ.portfolios ∧
    runJ2.db.positions.map (fun p => (p.portfolioId, p.bondId, p.qtyUnits)) =
      dbJ.positions.map (fun p => (p.portfolioId, p.bondId, p.qtyUnits)) ∧
    runJ2.db.positions.map (fun p => (p.avgPricePerUnit.num, p.avgPricePerUnit.den)) = [(17, 5)] :=
  ⟨selfTrade_first_err, selfTrade_first_orders, selfTrade_first_trades,
   selfTrade_first_positions, selfTrade_first_portfolios, selfTrade_err,
   selfTrade_trades, selfTrade_owners, selfTrade_cash_preserved,
   selfTrade_qty_preserved, selfTrade_avg⟩

/-- C8 witness: on the concrete store `dbH` holding the OPEN order 81 of
user 1, `cancelOrder` cancels it and returns `true`, and a repeated call is
refused with `false` and no further change. -/
theorem C8_cancel_contract_witness :
    cancelOrder dbH 81 1 = (saveOrder dbH { ordH with status := OStatus.CANCELLED }, true) ∧
    cancelOrder (saveOrder dbH { ordH with status := OStatus.CANCELLED }) 81 1 =
      (saveOrder dbH { ordH with status := OStatus.CANCELLED }, false) :=
  ((C8_cancel_contract dbH 81 1).2.2 ordH (by with_unfolding_all decide)).2 rfl

/-- C6 (corrected): validation of a MARKET BUY (`priceLimit` null) checks
the user's cash against `(priceLimit || 0) * qtyUnits = 0`, so it succeeds
for any portfolio with non-negative cash and never consults the book; when
the opposite book is empty the order is not rejected with a NoLiquidity
error — it passes validation, matches nothing, and is saved CANCELLED with
no trades and no error. -/
theorem C6_market_buy_validation (db : DB) (o : Order) (pf : Portfolio)
    (hside : o.side = Side.BUY) (htype : o.orderType = OrderType.MARKET)
    (hprice : o.priceLimit = none)
    (hpf : findPortfolio db o.userId = some pf) (hcash : 0 ≤ pf.cashBalance)
    (hfill : o.qtyFilledUnits = 0) (hqty : 0 < o.qtyUnits) :
    validateOrder db o = Except.ok () ∧
    (getOpenOrders db o.bondId (oppositeOf o.side) = [] →
      addOrder db o =
        { db := saveOrder db { o with status := OStatus.CANCELLED }
          order := { o with status := OStatus.CANCELLED }
          trades := []
          err := none }) := by
  have hval : validateOrder db o = Except.ok () := by
    unfold validateOrder
    rw [if_pos hside, hpf]
    dsimp only
    rw [hprice]
    have hnc : ¬ pf.cashBalance < jsNum none * ((o.qtyUnits : ℚ)) := by
      simp only [jsNum, Option.getD_none, zero_mul]
      exact not_lt.mpr hcash
    rw [if_neg hnc]
  refine ⟨hval, fun hbook => ?_⟩
  have hmatch : matchOrder db o = { db := db, order := o, trades := [], err := none } := by
    unfold matchOrder
    rw [hbook]
    rfl
  have hfin : finalStatus o = OStatus.CANCELLED := by
    unfold finalStatus
    rw [if_neg (by omega), if_neg (by omega), if_pos htype]
  unfold addOrder
  rw [hval]
  dsimp only
  rw [hmatch]
  dsimp only
  rw [hfin]

/-- C6 witness: user 1 with zero cash submits the 5-unit MARKET BUY `bE`
against the empty store `dbE`: validation succeeds and the order comes back
CANCELLED with no trades and no error. -/
theorem C6_market_buy_validation_witness :
    validateOrder dbE bE = Except.ok () ∧
    addOrder dbE bE =
      { db := saveOrder dbE { bE with status := OStatus.CANCELLED }
        order := { bE with status := OStatus.CANCELLED }
        trades := []
        err := none } := by
  have h := C6_market_buy_validation dbE bE ⟨1, 1, 0⟩ rfl rfl rfl
    (by with_unfolding_all decide) (by with_unfolding_all decide) rfl (by decide)
  exact ⟨h.1, h.2 (by with_unfolding_all decide)⟩

/-- C7 (corrected): a MARKET order is never finalized OPEN; when no error
propagated, a partially filled remainder yields PARTIAL (not CANCELLED)
while a wholly unfilled MARKET order yields CANCELLED; and under a fresh
id, no order with the incoming id appears on any level of any side of the
resulting book (the book lists OPEN orders only). -/
theorem C7_market_final_status (db : DB) (o : Order)
    (htype : o.orderType = OrderType.MARKET)
    (hfresh : ∀ r ∈ db.orders, r.id ≠ o.id) :
    (addOrder db o).order.status ≠ OStatus.OPEN ∧
    ((addOrder db o).err = none →
      ((addOrder db o).order.qtyFilledUnits < (addOrder db o).order.qtyUnits →
        0 < (addOrder db o).order.qtyFilledUnits →
        (addOrder db o).order.status = OStatus.PARTIAL) ∧
      ((addOrder db o).order.qtyFilledUnits = 0 →
        0 < (addOrder db o).order.qtyUnits →
        (addOrder db o).order.status = OStatus.CANCELLED)) ∧
    (∀ bond side lvl x, lvl ∈ getOrderBookSide (addOrder db o).db bond side →
      x ∈ lvl.orders → x.id ≠ o.id) := by
  have hMcore := matchOrder_order_core db o
  have h1 : (addOrder db o).order.status ≠ OStatus.OPEN := by
    rw [addOrder_order]
    cases validateOrder db o with
    | error e => dsimp only; decide
    | ok u =>
      dsimp only
      cases (matchOrder db o).err with
      | some e => dsimp only; decide
      | none =>
        dsimp only
        show finalStatus (matchOrder db o).order ≠ OStatus.OPEN
        unfold finalStatus
        split
        · decide
        · split
          · decide
          · split
            · decide
            · rename_i hne
              exact absurd (hMcore.2.2.1.trans htype) hne
  have hid : (addOrder db o).order.id = o.id := by
    rw [addOrder_order]
    cases validateOrder db o with
    | error e => rfl
    | ok u =>
      dsimp only
      cases (matchOrder db o).err with
      | some e => exact hMcore.1
      | none => exact hMcore.1
  have h2 : (addOrder db o).err = none →
      ((addOrder db o).order.qtyFilledUnits < (addOrder db o).order.qtyUnits →
        0 < (addOrder db o).order.qtyFilledUnits →
        (addOrder db o).order.status = OStatus.PARTIAL) ∧
      ((addOrder db o).order.qtyFilledUnits = 0 →
        0 < (addOrder db o).order.qtyUnits →
        (addOrder db o).order.status = OStatus.CANCELLED) := by
    intro herrnone
    rw [addOrder_err] at herrnone
    rw [addOrder_order]
    cases hval : validateOrder db o with
    | error e =>
      rw [hval] at herrnone
      exact absurd herrnone (by simp)
    | ok u =>
      rw [hval] at herrnone
      dsimp only at herrnone ⊢
      cases herr : (matchOrder db o).err with
      | some e =>
        rw [herr] at herrnone
        exact absurd herrnone (by simp)
      | none =>
        dsimp only
        refine ⟨fun hlt hpos => ?_, fun hz hq => ?_⟩
        · show finalStatus (matchOrder db o).order = OStatus.PARTIAL
          have hlt2 : (matchOrder db o).order.qtyFilledUnits
              < (matchOrder db o).order.qtyUnits := hlt
          have hpos2 : 0 < (matchOrder db o).order.qtyFilledUnits := hpos
          unfold finalStatus
          rw [if_neg (by omega), if_pos hpos2]
        · show finalStatus (matchOrder db o).order = OStatus.CANCELLED
          have hz2 : (matchOrder db o).order.qtyFilledUnits = 0 := hz
          have hq2 : 0 < (matchOrder db o).order.qtyUnits := hq
          unfold finalStatus
          rw [if_neg (by omega), if_neg (by omega),
            if_pos (hMcore.2.2.1.trans htype)]
  exact ⟨h1, h2, book_fresh_of_saved hid h1 hfresh (addOrder_db_orders db o)⟩

/-- C7 witness: the 100-unit MARKET BUY `mF` against the book holding the
50-unit resting SELL `sF`: it ends with status not OPEN (in fact PARTIAL
when partly filled, CANCELLED when nothing filled) and its id is on no
book level afterwards. -/
theorem C7_market_final_status_witness :
    (addOrder runF1.db mF).order.status ≠ OStatus.OPEN ∧
    ((addOrder runF1.db mF).err = none →
      ((addOrder runF1.db mF).order.qtyFilledUnits
          < (addOrder runF1.db mF).order.qtyUnits →
        0 < (addOrder runF1.db mF).order.qtyFilledUnits →
        (addOrder runF1.db mF).order.status = OStatus.PARTIAL) ∧
      ((addOrder runF1.db mF).order.qtyFilledUnits = 0 →
        0 < (addOrder runF1.db mF).order.qtyUnits →
        (addOrder runF1.db mF).order.status = OStatus.CANCELLED)) ∧
    (∀ bond side lvl x, lvl ∈ getOrderBookSide (addOrder runF1.db mF).db bond side →
      x ∈ lvl.orders → x.id ≠ mF.id) :=
  C7_market_final_status runF1.db mF rfl (by with_unfolding_all decide)

/-- C3 (corrected): `matchOrder` calls `executeTrade(order, oppositeOrder)`
positionally, so the incoming order always takes the `buyOrder` role: the
trade records the incoming order's id as `buyOrderId` and the resting
order's id as `sellOrderId` whatever the actual sides, and the price
tie-break favours the incoming order.  When every OPEN resting order on
the opposite side of the incoming order's bond was created strictly
earlier, every trade the submission generates is priced at the resting
order's limit price.  The unrestricted claim — the resting order sets the
price regardless of timestamps — is refuted by
`C3_tie_goes_to_incoming_order`. -/
theorem C3_price_of_strictly_earlier_resting (db : DB) (o : Order)
    (hearly : ∀ r ∈ db.orders, r.status = OStatus.OPEN → r.bondId = o.bondId →
      r.side = oppositeOf o.side → r.createdAt < o.createdAt) :
    ∀ t ∈ (addOrder db o).trades, ∃ r ∈ db.orders,
      r.status = OStatus.OPEN ∧ t.pricePerUnit = jsNum r.priceLimit ∧
      t.buyOrderId = o.id ∧ t.sellOrderId = r.id := by
  intro t ht
  have ht2 := addOrder_trades_sub db o t ht
  have hm := matchLoop_trades (getOpenOrders db o.bondId (oppositeOf o.side)) db o [] t ht2
  rcases hm with h | hex
  · simp at h
  · obtain ⟨r, hr, hl⟩ := hex
    obtain ⟨hrdb, hropen, hrbond, hrside⟩ := mem_getOpenOrders hr
    have hltc := hearly r hrdb hropen hrbond hrside
    simp only [tradeLink] at hl
    obtain ⟨hp, hbuy, hsell⟩ := hl
    refine ⟨r, hrdb, hropen, ?_, hbuy, hsell⟩
    rw [hp, if_neg (by omega)]

/-- C3 witness: the BUY LIMIT `bK` at 5 (t=2) against the strictly earlier
resting SELL LIMIT `sK` at 4 (t=1): the trade `tK` it generates is priced
at the resting order's limit 4, with the incoming id 96 as its buy side
and the resting id 95 as its sell side. -/
theorem C3_price_witness :
    ∃ r ∈ dbK.orders, r.status = OStatus.OPEN ∧ tK.pricePerUnit = jsNum r.priceLimit ∧
      tK.buyOrderId = bK.id ∧ tK.sellOrderId = r.id :=
  C3_price_of_strictly_earlier_resting dbK bK (by with_unfolding_all decide) tK
    (by with_unfolding_all decide)

end Orderbook
